import Mathlib

/-!
Verification of the gamification core of the 75-Hard tracker
(`utils.py` and `gamification.py`), shallowly embedded in Lean 4.

Modelling conventions:
* Calendar dates are modelled as integers (day numbers); `timedelta(days=1)`
  is `1` and `date.today()` becomes an explicit `today : ℤ` parameter.
* Python numbers are modelled as rationals (`ℚ`); `int(x)` is truncation
  toward zero (`pyTrunc`), Python's floor division `//` is `Int.fdiv`.
* Loosely typed cell values coming out of a row mapping are modelled by
  `PyVal`: `None`, a finite number, `float("nan")`, the empty string, a
  non-empty string (carrying the rational it parses to as a float, if any),
  or some other non-numeric object.
-/

/-- A loosely typed Python value as stored in a daily-log row.
`vstr p` is a non-empty string whose float-parse result is `p`
(`none` when `float(s)` raises `ValueError`); `vstrEmpty` is `""`;
`vobj` is any other object that `float` rejects with `TypeError`. -/
inductive PyVal where
  | vnone
  | vnum (q : ℚ)
  | vnan
  | vstrEmpty
  | vstr (parsed : Option ℚ)
  | vobj
  deriving DecidableEq, Repr

namespace PyVal

/-- Python truthiness of a `PyVal` (`bool(v)`): `None`, `0`, and `""` are
falsy; NaN, non-zero numbers, non-empty strings and objects are truthy. -/
def truthy : PyVal → Bool
  | vnone => false
  | vnum q => decide (q ≠ 0)
  | vnan => true
  | vstrEmpty => false
  | vstr _ => true
  | vobj => true

/-- `v is None` in Python. -/
def isNone : PyVal → Bool
  | vnone => true
  | _ => false

/-- Python's `a or b`: yields `a` when `a` is truthy, else `b`. -/
def pyOr (a b : PyVal) : PyVal := if a.truthy then a else b

end PyVal

/-- `utils._to_number(val, default)`: coerce a value to a number, treating
`None`, NaN, and values that `float` cannot convert as `default`. -/
def _to_number (val : PyVal) (default : ℚ) : ℚ :=
  match val with
  | PyVal.vnone => default
  | PyVal.vnum q => q
  | PyVal.vnan => default
  | PyVal.vstrEmpty => default
  | PyVal.vstr (some q) => q
  | PyVal.vstr none => default
  | PyVal.vobj => default

/-- One daily-log row. `log_date` is the day number, already normalised
(the Python side converts via `_to_date` / `pd.to_datetime(...).dt.date`
at the boundary); the remaining cells keep their loose `PyVal` typing. -/
structure Record where
  log_date : ℤ
  workout_1 : PyVal
  workout_2 : PyVal
  workout_1_duration : PyVal
  workout_2_duration : PyVal
  water_intake : PyVal
  reading_time : PyVal
  deriving DecidableEq, Repr

/-- `utils.completion_score(row)`: true if the day meets 75-Hard style —
two workouts, water ≥ 3 L, reading ≥ 10 min.  A workout slot counts via
`(row.get("workout_k") or row.get("workout_k_duration")) is not None`. -/
def completion_score (row : Record) : Bool :=
  let w1 := !(PyVal.pyOr row.workout_1 row.workout_1_duration).isNone
  let w2 := !(PyVal.pyOr row.workout_2 row.workout_2_duration).isNone
  let water := decide (3 ≤ _to_number row.water_intake 0)
  let reading := decide (10 ≤ _to_number row.reading_time 0)
  w1 && w2 && water && reading

/-! ### `sorted(set(...))`

Python's `sorted(set(l))` is the strictly increasing enumeration of the
distinct elements of `l`.  We realise it as repeated duplicate-skipping
sorted insertion and prove the characterising properties (strictly sorted,
same membership) below; any function producing the strictly increasing
duplicate-free enumeration of the same elements is extensionally equal. -/

/-- Insert `x` into a sorted list, keeping it sorted. -/
def insSorted (x : ℤ) : List ℤ → List ℤ
  | [] => [x]
  | y :: ys => if x ≤ y then x :: y :: ys else y :: insSorted x ys

/-- Insert `x` only when absent (set semantics). -/
def insUnique (x : ℤ) (s : List ℤ) : List ℤ :=
  if x ∈ s then s else insSorted x s

/-- `sorted(set(l))`: the strictly increasing list of distinct elements. -/
def sortedUnique (l : List ℤ) : List ℤ := l.foldr insUnique []

/-! ### `utils.compute_streak` -/

/-- The walk of `compute_streak`: `streak = 0; expect = today;`
`for d in sorted_dates: if d == expect: streak += 1; expect -= 1 else: break`. -/
def walkStreak (expect : ℤ) (streak : ℕ) : List ℤ → ℕ
  | [] => streak
  | d :: ds => if d = expect then walkStreak (expect - 1) (streak + 1) ds else streak

/-- `utils.compute_streak(log_dates)`: current streak of consecutive days
with a log.  `sorted(set(log_dates), reverse=True)` is the reverse of the
increasing enumeration; `date.today()` is the explicit `today` argument. -/
def compute_streak (today : ℤ) (log_dates : List ℤ) : ℕ :=
  if log_dates = [] then 0
  else
    match (sortedUnique log_dates).reverse with
    | [] => 0
    | top :: rest =>
        if top = today ∨ top = today - 1 then walkStreak today 0 (top :: rest)
        else 0

/-! ### `gamification._longest_streak_all` -/

/-- The scan of the streak-run functions over an already sorted list:
`current`/`longest` threading of
`if diff == 1 then current += 1 else current = 1; longest = max ...`. -/
def scanFrom (prev : ℤ) (current longest : ℕ) : List ℤ → ℕ
  | [] => longest
  | d :: ds =>
      let c := if d - prev = 1 then current + 1 else 1
      scanFrom d c (max longest c) ds

/-- The streak-run scan on a sorted duplicate-free list: 0 on the empty
list (Python's `if not log_dates: return 0`), else `longest = current = 1`
at the head and `scanFrom` over the tail. -/
def scanStreak : List ℤ → ℕ
  | [] => 0
  | d :: rest => scanFrom d 1 1 rest

/-- `gamification._longest_streak_all(log_dates)`: longest run of
consecutive days with a log anywhere in history. -/
def _longest_streak_all (log_dates : List ℤ) : ℕ :=
  scanStreak (sortedUnique log_dates)

/-! ### `gamification` XP, levels and leaderboard points -/

def XP_PER_DAY_LOGGED : ℕ := 10
def XP_PER_FULL_DAY : ℕ := 50
def XP_BONUS_7_STREAK : ℕ := 100
def XP_BONUS_30_STREAK : ℕ := 500

/-- `gamification.calculate_xp(logs, full_completion_count)`: total XP from
logs — per day, per full-completion day, plus streak bonuses. -/
def calculate_xp (logs : List Record) (full_completion_count : ℕ) : ℕ :=
  let days_logged := logs.length
  if logs = [] then 0
  else
    let log_dates := logs.map Record.log_date
    let best_streak := _longest_streak_all log_dates
    let xp := days_logged * XP_PER_DAY_LOGGED + full_completion_count * XP_PER_FULL_DAY
    let xp := if 30 ≤ best_streak then xp + XP_BONUS_30_STREAK else xp
    let xp := if 7 ≤ best_streak then xp + XP_BONUS_7_STREAK else xp
    xp

/-- `gamification.xp_for_level(level)`: minimum cumulative XP required to
be at this level. -/
def xp_for_level (level : ℤ) : ℤ :=
  if level ≤ 0 then 0
  else if level = 1 then 0
  else if level ≤ 5 then (level - 1) * 100
  else if level ≤ 10 then 500 + (level - 6) * 200
  else if level ≤ 20 then 1500 + (level - 11) * 350
  else 5000 + max 0 (level - 21) * 500

/-- Python's `int(q)` on a finite float/rational: truncation toward zero. -/
def pyTrunc (q : ℚ) : ℤ := if 0 ≤ q then ⌊q⌋ else ⌈q⌉

def POINTS_PER_DAY_LOGGED : ℤ := 10
def POINTS_PER_STREAK_DAY : ℤ := 15
def POINTS_PER_FULL_DAY : ℤ := 50
def POINTS_PER_100_WORKOUT_MIN : ℤ := 10
def POINTS_PER_LITER_WATER : ℤ := 5
def POINTS_PER_10_READING_MIN : ℤ := 5

/-- The metrics bundle consumed by `calculate_points`; the Python dict's
`metrics.get(key, 0)` reads exactly these six keys, so the bundle is a
struct with the six fields (water is a float, the rest integers). -/
structure PMetrics where
  days_logged : ℤ
  streak : ℤ
  full_completion_days : ℤ
  total_workout_min : ℤ
  total_water_L : ℚ
  total_reading_min : ℤ
  deriving DecidableEq, Repr

/-- `gamification.calculate_points(metrics)`: convert metrics to battle
points.  `//` is Python floor division (`Int.fdiv`); the water term is
`int(water_L * POINTS_PER_LITER_WATER)` — truncation after multiplying. -/
def calculate_points (m : PMetrics) : ℤ :=
  m.days_logged * POINTS_PER_DAY_LOGGED
    + m.streak * POINTS_PER_STREAK_DAY
    + m.full_completion_days * POINTS_PER_FULL_DAY
    + (Int.fdiv m.total_workout_min 100) * POINTS_PER_100_WORKOUT_MIN
    + pyTrunc (m.total_water_L * (POINTS_PER_LITER_WATER : ℚ))
    + (Int.fdiv m.total_reading_min 10) * POINTS_PER_10_READING_MIN

/-! ### `gamification` badges -/

/-- One entry of `BADGE_CRITERIA`:
`(badge_type, name, description, threshold, metric key)`. -/
structure BadgeRule where
  badge_type : String
  name : String
  descr : String
  threshold : ℚ
  key : String
  deriving DecidableEq, Repr

def BADGE_CRITERIA : List BadgeRule :=
  [ ⟨"first_step", "First Step", "Log your first day", 1, "days_logged"⟩,
    ⟨"week_warrior", "Week Warrior", "7-day streak", 7, "streak"⟩,
    ⟨"month_master", "Month Master", "30-day streak", 30, "streak"⟩,
    ⟨"hydration_hero", "Hydration Hero", "100L total water", 100, "total_water_L"⟩,
    ⟨"reading_rookie", "Reading Rookie", "10 hours total reading", 600, "total_reading_min"⟩,
    ⟨"workout_wonder", "Workout Wonder", "1000 min total workout", 1000, "total_workout_min"⟩,
    ⟨"perfect_week", "Perfect Week", "7 consecutive full completion days", 7, "full_completion_streak"⟩,
    ⟨"75_hard_complete", "75 Hard Complete", "Complete 75 days", 75, "days_logged"⟩ ]

/-- `gamification.check_achievements(metrics, already_earned)`: the badge
types newly earned.  `metrics` is the dict as a partial map; a key that is
absent and a value of `None` both read as `0`
(`metrics.get(key, 0)` followed by `if value is None: value = 0`). -/
def check_achievements (metrics : String → Option ℚ) (already_earned : List String) : List String :=
  (BADGE_CRITERIA.filter fun r =>
      !(decide (r.badge_type ∈ already_earned))
        && decide (r.threshold ≤ (metrics r.key).getD 0)).map BadgeRule.badge_type

/-! ### `gamification.get_metrics_for_badges` -/

/-- `pd.to_numeric(col, errors="coerce").fillna(0)` on one cell: numeric
values and numeric strings pass through, everything else becomes 0. -/
def pdCoerce (v : PyVal) : ℚ :=
  match v with
  | PyVal.vnum q => q
  | PyVal.vstr (some q) => q
  | _ => 0

/-- The metrics bundle produced by `get_metrics_for_badges`. -/
structure Metrics where
  days_logged : ℕ
  streak : ℕ
  total_water_L : ℚ
  total_reading_min : ℤ
  total_workout_min : ℤ
  full_completion_days : ℕ
  full_completion_streak : ℕ
  deriving DecidableEq, Repr

/-- Stable insertion by `log_date` (an earlier row stays before rows with
the same date), realising `df.sort_values("log_date")`. -/
def insByDate (r : Record) : List Record → List Record
  | [] => [r]
  | s :: ss => if r.log_date ≤ s.log_date then r :: s :: ss else s :: insByDate r ss

/-- Sort the rows by `log_date`. -/
def sortByDate (l : List Record) : List Record := l.foldr insByDate []

/-- The full-completion-streak loop of `get_metrics_for_badges`:
`for v in df_sorted["full"]: if v: current += 1; full_streak = max(...)
else: current = 0`. -/
def runScan (current best : ℕ) : List Bool → ℕ
  | [] => best
  | b :: bs => if b then runScan (current + 1) (max best (current + 1)) bs else runScan 0 best bs

/-- `gamification.get_metrics_for_badges(logs)`: metrics needed for badge
checks (`date.today()` made explicit for the `compute_streak` call). -/
def get_metrics_for_badges (today : ℤ) (logs : List Record) : Metrics :=
  if logs = [] then
    { days_logged := 0, streak := 0, total_water_L := 0, total_reading_min := 0,
      total_workout_min := 0, full_completion_days := 0, full_completion_streak := 0 }
  else
    let log_dates := logs.map Record.log_date
    let streak := compute_streak today log_dates
    let full := (logs.filter fun r => completion_score r).length
    let workout_min := pyTrunc ((logs.map fun r =>
      pdCoerce r.workout_1_duration + pdCoerce r.workout_2_duration).sum)
    let water_L := (logs.map fun r => pdCoerce r.water_intake).sum
    let reading_min := pyTrunc ((logs.map fun r => pdCoerce r.reading_time).sum)
    let flags := (sortByDate logs).map completion_score
    let full_streak := if flags.any id then runScan 0 0 flags else 0
    { days_logged := logs.length, streak := streak, total_water_L := water_L,
      total_reading_min := reading_min, total_workout_min := workout_min,
      full_completion_days := full, full_completion_streak := full_streak }

/-! ### Concrete inputs used by the claim theorems and witnesses -/

/-- The metrics bundle of spec §8's `calculatePoints` example. -/
def c1Metrics : PMetrics :=
  { days_logged := 5, streak := 3, full_completion_days := 1,
    total_workout_min := 250, total_water_L := 25 / 2, total_reading_min := 45 }

/-- A row whose first workout slot has a null label but a non-null
duration: `workout_1 = None`, `workout_1_duration = 30`,
`workout_2 = "Yoga"`, `water = 3.0`, `reading = 10`. -/
def c2Row : Record :=
  { log_date := 0, workout_1 := PyVal.vnone, workout_2 := PyVal.vstr none,
    workout_1_duration := PyVal.vnum 30, workout_2_duration := PyVal.vnone,
    water_intake := PyVal.vnum 3, reading_time := PyVal.vnum 10 }

/-- A log row on day `d` with nothing else filled in. -/
def mkRec (d : ℤ) : Record :=
  { log_date := d, workout_1 := PyVal.vnone, workout_2 := PyVal.vnone,
    workout_1_duration := PyVal.vnone, workout_2_duration := PyVal.vnone,
    water_intake := PyVal.vnone, reading_time := PyVal.vnone }

/-- A full-completion row on day `d`: two labelled workouts, 3 L water,
10 min reading. -/
def fullRec (d : ℤ) : Record :=
  { log_date := d, workout_1 := PyVal.vstr none, workout_2 := PyVal.vstr none,
    workout_1_duration := PyVal.vnone, workout_2_duration := PyVal.vnone,
    water_intake := PyVal.vnum 3, reading_time := PyVal.vnum 10 }

/-- Ten logs whose lifetime-best streak is 8 (days 1–8, then 20 and 30). -/
def c5ExampleLogs : List Record :=
  [mkRec 1, mkRec 2, mkRec 3, mkRec 4, mkRec 5, mkRec 6, mkRec 7, mkRec 8,
   mkRec 20, mkRec 30]

/-- Thirty logs on consecutive days 1–30 (best streak 30). -/
def c5StreakLogs : List Record :=
  (List.range 30).map fun i => mkRec ((i : ℤ) + 1)

/-- The metrics dict `{days_logged: 75}` of spec §8's badge example. -/
def c8Metrics : String → Option ℚ :=
  fun k => if k = "days_logged" then some 75 else none

/-- A row all of whose numeric cells are malformed: NaN label, object
duration, unparseable-string duration and water, `None` reading. -/
def c9BadRecord : Record :=
  { log_date := 0, workout_1 := PyVal.vnan, workout_2 := PyVal.vobj,
    workout_1_duration := PyVal.vobj, workout_2_duration := PyVal.vstr none,
    water_intake := PyVal.vstr none, reading_time := PyVal.vnone }

/-- Two full-completion rows separated by a seven-day logging gap. -/
def c4GapLogs : List Record := [fullRec 0, fullRec 7]

/-- Two full-completion rows on adjacent calendar days. -/
def c4DenseLogs : List Record := [fullRec 0, fullRec 1]

/-! ## Helper lemmas -/

theorem mem_insSorted {x a : ℤ} {s : List ℤ} :
    a ∈ insSorted x s ↔ a = x ∨ a ∈ s := by
  induction s with
  | nil => simp [insSorted]
  | cons y ys ih =>
      by_cases h : x ≤ y
      · simp [insSorted, h]
      · simp [insSorted, h, ih]; tauto

theorem mem_insUnique {x a : ℤ} {s : List ℤ} :
    a ∈ insUnique x s ↔ a = x ∨ a ∈ s := by
  unfold insUnique
  by_cases h : x ∈ s
  · simp [h]; intro ha; rw [ha]; exact h
  · simp [h, mem_insSorted]

theorem mem_sortedUnique {a : ℤ} {l : List ℤ} :
    a ∈ sortedUnique l ↔ a ∈ l := by
  induction l with
  | nil => simp [sortedUnique]
  | cons x xs ih =>
      show a ∈ insUnique x (sortedUnique xs) ↔ _
      rw [mem_insUnique, ih]; simp

theorem pairwise_insSorted {x : ℤ} {s : List ℤ} (hx : x ∉ s)
    (hs : s.Pairwise (· < ·)) : (insSorted x s).Pairwise (· < ·) := by
  induction s with
  | nil => simp [insSorted]
  | cons y ys ih =>
      rw [List.pairwise_cons] at hs
      by_cases h : x ≤ y
      · have hxy : x < y := lt_of_le_of_ne h (by intro e; exact hx (e ▸ List.mem_cons_self _ _))
        simp only [insSorted, if_pos h]
        refine List.pairwise_cons.mpr ⟨?_, List.pairwise_cons.mpr hs⟩
        intro b hb
        rcases List.mem_cons.mp hb with rfl | hb
        · exact hxy
        · exact lt_trans hxy (hs.1 b hb)
      · simp only [insSorted, if_neg h]
        refine List.pairwise_cons.mpr ⟨?_, ih (fun c => hx (List.mem_cons_of_mem _ c)) hs.2⟩
        intro b hb
        rcases mem_insSorted.mp hb with rfl | hb
        · exact lt_of_not_le h
        · exact hs.1 b hb

theorem pairwise_insUnique {x : ℤ} {s : List ℤ}
    (hs : s.Pairwise (· < ·)) : (insUnique x s).Pairwise (· < ·) := by
  unfold insUnique
  by_cases h : x ∈ s
  · simpa [h] using hs
  · simpa [h] using pairwise_insSorted h hs

theorem pairwise_sortedUnique (l : List ℤ) :
    (sortedUnique l).Pairwise (· < ·) := by
  induction l with
  | nil => simp [sortedUnique]
  | cons x xs ih => exact pairwise_insUnique ih

/-- Strictly increasing lists with the same members are equal. -/
theorem sorted_lt_ext {s t : List ℤ} (hs : s.Pairwise (· < ·))
    (ht : t.Pairwise (· < ·)) (h : ∀ a, a ∈ s ↔ a ∈ t) : s = t := by
  have hns : s.Nodup := hs.imp ne_of_lt
  have hnt : t.Nodup := ht.imp ne_of_lt
  have hperm : s.Perm t := (List.perm_ext_iff_of_nodup hns hnt).mpr h
  exact List.eq_of_perm_of_sorted hperm hs ht

theorem sortedUnique_cons (x : ℤ) (l : List ℤ) :
    sortedUnique (x :: l) = insUnique x (sortedUnique l) := rfl

theorem sortedUnique_append_singleton (l : List ℤ) (x : ℤ) :
    sortedUnique (l ++ [x]) = sortedUnique (x :: l) := by
  refine sorted_lt_ext (pairwise_sortedUnique _) (pairwise_sortedUnique _) ?_
  intro a
  rw [mem_sortedUnique, mem_sortedUnique]
  simp [List.mem_append]
  tauto

theorem isNone_eq_true_iff (v : PyVal) : v.isNone = true ↔ v = PyVal.vnone := by
  cases v <;> simp [PyVal.isNone]

theorem truthy_ne_vnone {v : PyVal} (h : v.truthy = true) : v ≠ PyVal.vnone := by
  rintro rfl; simp [PyVal.truthy] at h

theorem isNone_eq_false_iff (v : PyVal) : v.isNone = false ↔ v ≠ PyVal.vnone := by
  cases v <;> simp [PyVal.isNone]

theorem pyOr_not_isNone (a b : PyVal) :
    (!(PyVal.pyOr a b).isNone) = true ↔ (a.truthy = true ∨ b ≠ PyVal.vnone) := by
  unfold PyVal.pyOr
  by_cases h : a.truthy = true
  · simp [h, Bool.not_eq_true', isNone_eq_true_iff]
    exact (isNone_eq_false_iff a).mpr (truthy_ne_vnone h)
  · simp [h, Bool.not_eq_true']
    exact isNone_eq_false_iff b

/-! ## Claim theorems -/

/-- C1, counterexample: on the spec's own example bundle
`{days_logged:5, streak:3, full_completion_days:1, total_workout_min:250,
total_water_L:12.5, total_reading_min:45}` the code returns 247, not the
claimed 245 — the water term is `int(12.5 × 5) = 62`, not `5 × ⌊12.5⌋ = 60`. -/
theorem calculate_points_example_ne_claimed :
    calculate_points c1Metrics = 247 ∧ calculate_points c1Metrics ≠ 245 := by
  constructor
  · norm_num [calculate_points, c1Metrics, pyTrunc, POINTS_PER_DAY_LOGGED,
      POINTS_PER_STREAK_DAY, POINTS_PER_FULL_DAY, POINTS_PER_100_WORKOUT_MIN,
      POINTS_PER_LITER_WATER, POINTS_PER_10_READING_MIN, Int.fdiv]
  · norm_num [calculate_points, c1Metrics, pyTrunc, POINTS_PER_DAY_LOGGED,
      POINTS_PER_STREAK_DAY, POINTS_PER_FULL_DAY, POINTS_PER_100_WORKOUT_MIN,
      POINTS_PER_LITER_WATER, POINTS_PER_10_READING_MIN, Int.fdiv]

/-- C1, amended: for every metrics bundle with non-negative values,
`calculate_points` returns `10×days_logged + 15×streak +
50×full_completion_days + 10×⌊total_workout_min/100⌋ + ⌊5×total_water_L⌋ +
5×⌊total_reading_min/10⌋` — the water term truncates after multiplying by
5 (so the spec example yields 247). -/
theorem calculate_points_formula (m : PMetrics)
    (hd : 0 ≤ m.days_logged) (hs : 0 ≤ m.streak) (hf : 0 ≤ m.full_completion_days)
    (hw : 0 ≤ m.total_workout_min) (hwa : 0 ≤ m.total_water_L)
    (hr : 0 ≤ m.total_reading_min) :
    calculate_points m =
      10 * m.days_logged + 15 * m.streak + 50 * m.full_completion_days
        + 10 * Int.fdiv m.total_workout_min 100
        + ⌊5 * m.total_water_L⌋
        + 5 * Int.fdiv m.total_reading_min 10 := by
  have h5 : (0 : ℚ) ≤ m.total_water_L * ((5 : ℤ) : ℚ) := by
    have h : ((5 : ℤ) : ℚ) = 5 := by norm_num
    rw [h]; positivity
  simp only [calculate_points, POINTS_PER_DAY_LOGGED, POINTS_PER_STREAK_DAY,
    POINTS_PER_FULL_DAY, POINTS_PER_100_WORKOUT_MIN, POINTS_PER_LITER_WATER,
    POINTS_PER_10_READING_MIN, pyTrunc, if_pos h5]
  push_cast
  rw [mul_comm m.total_water_L (5 : ℚ)]
  ring

/-- C1, witness for the amended formula at the spec example bundle. -/
theorem calculate_points_formula_witness :
    calculate_points c1Metrics =
      10 * 5 + 15 * 3 + 50 * 1 + 10 * Int.fdiv 250 100
        + ⌊(5 : ℚ) * (25 / 2)⌋ + 5 * Int.fdiv 45 10 :=
  calculate_points_formula c1Metrics (by norm_num [c1Metrics]) (by norm_num [c1Metrics])
    (by norm_num [c1Metrics]) (by norm_num [c1Metrics]) (by norm_num [c1Metrics])
    (by norm_num [c1Metrics])

/-- C2, counterexample: a row with `workout_1 = None` but
`workout_1_duration = 30` (and `workout_2 = "Yoga"`, water 3.0, reading
10) is scored complete by the code, so "true iff both workout fields are
non-null AND water ≥ 3 AND reading ≥ 10" is false at this row. -/
theorem completion_score_counterexample :
    ¬ (completion_score c2Row = true ↔
        (c2Row.workout_1 ≠ PyVal.vnone ∧ c2Row.workout_2 ≠ PyVal.vnone ∧
         3 ≤ _to_number c2Row.water_intake 0 ∧
         10 ≤ _to_number c2Row.reading_time 0)) := by
  decide

/-- C2, amended: `completion_score` is true iff each workout slot is
present — the slot's label is truthy, or its duration is non-null
(`(row.get("workout_k") or row.get("workout_k_duration")) is not None`) —
AND water ≥ 3.0 AND reading ≥ 10, with missing or unparseable numeric
values treated as 0.  The spec's two examples hold as given. -/
theorem completion_score_iff :
    (∀ row : Record,
      completion_score row = true ↔
        ((row.workout_1.truthy = true ∨ row.workout_1_duration ≠ PyVal.vnone) ∧
         (row.workout_2.truthy = true ∨ row.workout_2_duration ≠ PyVal.vnone) ∧
         3 ≤ _to_number row.water_intake 0 ∧
         10 ≤ _to_number row.reading_time 0))
    ∧ completion_score
        { log_date := 0, workout_1 := PyVal.vstr none, workout_2 := PyVal.vstr none,
          workout_1_duration := PyVal.vnone, workout_2_duration := PyVal.vnone,
          water_intake := PyVal.vnum 3, reading_time := PyVal.vnum 10 } = true
    ∧ completion_score
        { log_date := 0, workout_1 := PyVal.vstr none, workout_2 := PyVal.vnone,
          workout_1_duration := PyVal.vnone, workout_2_duration := PyVal.vnone,
          water_intake := PyVal.vnum 5, reading_time := PyVal.vnum 30 } = false := by
  refine ⟨?_, by decide, by decide⟩
  intro row
  simp only [completion_score, Bool.and_eq_true, decide_eq_true_eq,
    pyOr_not_isNone]
  tauto

/-- C3, the code evaluated at the failing input: with logs on the three
days ending yesterday (`today = 100`, dates 99, 98, 97) the code returns
0, although its own docstring ("consecutive days with a log, ending today
or yesterday") and the spec ("the streak survives a missing entry for
today when yesterday is present") require 3: the guard admits a maximum
of yesterday, but the walk starts at `expect = today` and breaks at once. -/
theorem compute_streak_yesterday_bug :
    compute_streak 100 [99, 98, 97] = 0 := by decide

/-- C6: `xp_for_level` is strictly increasing on levels 1..99 — for every
level `1 ≤ l ≤ 98`, `xp_for_level l < xp_for_level (l+1)`. -/
theorem xp_for_level_strict_mono (l : ℤ) (h1 : 1 ≤ l) (h2 : l ≤ 98) :
    xp_for_level l < xp_for_level (l + 1) := by
  simp only [xp_for_level, max_def]
  split_ifs <;> omega

/-- C6, witness: the strict increase at level 5. -/
theorem xp_for_level_strict_mono_witness :
    (1 : ℤ) ≤ 5 ∧ (5 : ℤ) ≤ 98 ∧ xp_for_level 5 < xp_for_level 6 :=
  ⟨by norm_num, by norm_num,
    xp_for_level_strict_mono 5 (by norm_num) (by norm_num)⟩

/-- C9: the core is total and degrades to defined zero/defaults on
malformed input (Lean totality is the embedding of "never raises"):
`_to_number` sends `None`, NaN, unparseable strings, the empty string and
non-numeric objects to the default; `completion_score` always yields a
boolean; the aggregates return their zero bundles on empty input; and on a
row whose numeric cells are all malformed, `get_metrics_for_badges` yields
the zero totals while still counting the row as logged. -/
theorem core_total_on_malformed :
    ∀ (d : ℚ) (row : Record) (c : ℕ) (today : ℤ),
      _to_number PyVal.vnone d = d ∧ _to_number PyVal.vnan d = d ∧
      _to_number (PyVal.vstr none) d = d ∧ _to_number PyVal.vstrEmpty d = d ∧
      _to_number PyVal.vobj d = d ∧
      (completion_score row = true ∨ completion_score row = false) ∧
      calculate_xp [] c = 0 ∧
      compute_streak today [] = 0 ∧
      get_metrics_for_badges today [] =
        { days_logged := 0, streak := 0, total_water_L := 0, total_reading_min := 0,
          total_workout_min := 0, full_completion_days := 0, full_completion_streak := 0 } ∧
      (get_metrics_for_badges today [c9BadRecord]).total_water_L = 0 ∧
      (get_metrics_for_badges today [c9BadRecord]).total_reading_min = 0 ∧
      (get_metrics_for_badges today [c9BadRecord]).total_workout_min = 0 ∧
      (get_metrics_for_badges today [c9BadRecord]).full_completion_days = 0 ∧
      (get_metrics_for_badges today [c9BadRecord]).days_logged = 1 := by
  intro d row c today
  refine ⟨rfl, rfl, rfl, rfl, rfl, ?_, rfl, rfl, rfl, ?_, ?_, ?_, ?_, ?_⟩
  · cases h : completion_score row
    · exact Or.inr rfl
    · exact Or.inl rfl
  · simp [get_metrics_for_badges, c9BadRecord, pdCoerce]
  · simp [get_metrics_for_badges, c9BadRecord, pdCoerce, pyTrunc]
  · simp [get_metrics_for_badges, c9BadRecord, pdCoerce, pyTrunc]
  · rfl
  · rfl

/-- C10: for every non-empty list of log dates containing a date strictly
later than today, `compute_streak` returns 0 — the recency guard accepts
only a maximum of today or yesterday. -/
theorem compute_streak_future_zero (today : ℤ) (l : List ℤ)
    (hne : l ≠ []) (hfut : ∃ d ∈ l, today < d) : compute_streak today l = 0 := by
  obtain ⟨d, hd, hlt⟩ := hfut
  have hmem : d ∈ sortedUnique l := mem_sortedUnique.mpr hd
  have hmemr : d ∈ (sortedUnique l).reverse := List.mem_reverse.mpr hmem
  rcases h : (sortedUnique l).reverse with _ | ⟨top, rest⟩
  · rw [h] at hmemr; simp at hmemr
  · have hpw : ((sortedUnique l).reverse).Pairwise (fun a b => b < a) := by
      rw [List.pairwise_reverse]
      exact pairwise_sortedUnique l
    rw [h] at hpw hmemr
    have htop : today < top := by
      rcases List.mem_cons.mp hmemr with rfl | hr
      · exact hlt
      · have hdt := (List.pairwise_cons.mp hpw).1 d hr
        omega
    have hcond : ¬ (top = today ∨ top = today - 1) := by omega
    simp [compute_streak, hne, h, hcond]

/-- C10, witness: `today = 100` with logs on days 101, 100, 99 (today and
the preceding day present, but a future-dated log) yields streak 0. -/
theorem compute_streak_future_zero_witness :
    ([101, 100, 99] : List ℤ) ≠ [] ∧
      (∃ d ∈ ([101, 100, 99] : List ℤ), (100 : ℤ) < d) ∧
      compute_streak 100 [101, 100, 99] = 0 :=
  ⟨by decide, by decide,
    compute_streak_future_zero 100 [101, 100, 99] (by decide) (by decide)⟩

/-- C8: `check_achievements` returns exactly the badge types of the fixed
8-entry criteria table that are not already earned and whose metric value
(missing treated as 0) reaches the threshold, in table order (the result
is a sublist of the table's badge types); with `{days_logged: 75}` and
nothing earned it includes both `first_step` and `75_hard_complete`. -/
theorem check_achievements_spec :
    ∀ (metrics : String → Option ℚ) (already_earned : List String),
      (∀ b, b ∈ check_achievements metrics already_earned ↔
        ∃ r ∈ BADGE_CRITERIA, r.badge_type = b ∧ b ∉ already_earned ∧
          r.threshold ≤ (metrics r.key).getD 0)
      ∧ (check_achievements metrics already_earned).Sublist
          (BADGE_CRITERIA.map BadgeRule.badge_type)
      ∧ "first_step" ∈ check_achievements c8Metrics []
      ∧ "75_hard_complete" ∈ check_achievements c8Metrics [] := by
  intro metrics already_earned
  refine ⟨?_, List.Sublist.map _ (List.filter_sublist _), ?_, ?_⟩
  · intro b
    simp only [check_achievements, List.mem_map, List.mem_filter,
      Bool.and_eq_true, Bool.not_eq_true', decide_eq_false_iff_not,
      decide_eq_true_eq]
    constructor
    · rintro ⟨r, ⟨hrmem, hnot, hth⟩, rfl⟩
      exact ⟨r, hrmem, rfl, hnot, hth⟩
    · rintro ⟨r, hrmem, rfl, hnot, hth⟩
      exact ⟨r, ⟨hrmem, hnot, hth⟩, rfl⟩
  · decide
  · decide

/-- C5: for every log list and full-completion count `c`, `calculate_xp`
is 0 on the empty list and otherwise `10×(number of logs) + 50×c`, plus
100 when the lifetime-best streak over the logs' dates is ≥ 7, plus a
further 500 (stacking on the 100) when it is ≥ 30; in particular 10 logs
with best streak 8 and `c = 2` give 300, and 30 consecutive logs with
`c = 0` give `300 + 100 + 500 = 900`. -/
theorem calculate_xp_spec :
    ∀ (logs : List Record) (c : ℕ),
      calculate_xp logs c =
        (if logs = [] then 0
         else logs.length * 10 + c * 50
           + (if 7 ≤ _longest_streak_all (logs.map Record.log_date) then 100 else 0)
           + (if 30 ≤ _longest_streak_all (logs.map Record.log_date) then 500 else 0))
      ∧ calculate_xp c5ExampleLogs 2 = 300
      ∧ calculate_xp c5StreakLogs 0 = 900 := by
  intro logs c
  refine ⟨?_, ?_, ?_⟩
  · by_cases h : logs = []
    · simp [calculate_xp, h]
    · simp only [calculate_xp, if_neg h, XP_PER_DAY_LOGGED, XP_PER_FULL_DAY,
        XP_BONUS_30_STREAK, XP_BONUS_7_STREAK]
      split_ifs <;> omega
  · decide
  · decide

theorem sortByDate_sorted_id {l : List Record}
    (h : l.Pairwise (fun a b => a.log_date < b.log_date)) : sortByDate l = l := by
  induction l with
  | nil => rfl
  | cons r rest ih =>
      rw [List.pairwise_cons] at h
      show insByDate r (sortByDate rest) = r :: rest
      rw [ih h.2]
      cases rest with
      | nil => rfl
      | cons s ss => simp [insByDate, le_of_lt (h.1 s (List.mem_cons_self s ss))]

theorem runScan_zero_of_all_false :
    ∀ {flags : List Bool}, flags.any id = false → ∀ c, runScan c 0 flags = 0 := by
  intro flags
  induction flags with
  | nil => intro _ _; rfl
  | cons b bs ih =>
      intro h c
      simp only [List.any_cons, Bool.or_eq_false_iff, id] at h
      simp only [runScan, h.1, Bool.false_eq_true, if_false]
      exact ih h.2 0

theorem full_streak_runScan (today : ℤ) (l : List Record)
    (h : l.Pairwise (fun a b => a.log_date < b.log_date)) :
    (get_metrics_for_badges today l).full_completion_streak =
      runScan 0 0 (l.map completion_score) := by
  by_cases hl : l = []
  · subst hl; rfl
  · simp only [get_metrics_for_badges, if_neg hl]
    show (if ((sortByDate l).map completion_score).any id
          then runScan 0 0 ((sortByDate l).map completion_score) else 0)
        = runScan 0 0 (l.map completion_score)
    rw [sortByDate_sorted_id h]
    rcases ha : (l.map completion_score).any id with _ | _
    · rw [if_neg (by simp [ha]), runScan_zero_of_all_false ha]
    · rw [if_pos (by simp [ha])]

/-- C4: the `full_completion_streak` of `get_metrics_for_badges` is the
longest run over the completion flags of the records in log-date-sorted
row order only — for strictly date-sorted inputs it depends on nothing
but the flag sequence (so multi-day logging gaps between rows adjacent in
sorted order do not break it), and any two full-completion records with
`r₁.log_date < r₂.log_date` — however wide the calendar gap — give a
full-completion streak of 2. -/
theorem full_completion_streak_row_order :
    (∀ (t₁ t₂ : ℤ) (l₁ l₂ : List Record),
        l₁.Pairwise (fun a b => a.log_date < b.log_date) →
        l₂.Pairwise (fun a b => a.log_date < b.log_date) →
        l₁.map completion_score = l₂.map completion_score →
        (get_metrics_for_badges t₁ l₁).full_completion_streak
          = (get_metrics_for_badges t₂ l₂).full_completion_streak)
    ∧ (∀ (t : ℤ) (r₁ r₂ : Record),
        completion_score r₁ = true → completion_score r₂ = true →
        r₁.log_date < r₂.log_date →
        (get_metrics_for_badges t [r₁, r₂]).full_completion_streak = 2) := by
  constructor
  · intro t₁ t₂ l₁ l₂ h₁ h₂ hflags
    rw [full_streak_runScan t₁ l₁ h₁, full_streak_runScan t₂ l₂ h₂, hflags]
  · intro t r₁ r₂ h₁ h₂ hlt
    have hp : ([r₁, r₂]).Pairwise (fun a b => a.log_date < b.log_date) := by
      simp [hlt]
    rw [full_streak_runScan t [r₁, r₂] hp]
    show runScan 0 0 ([r₁, r₂].map completion_score) = 2
    simp only [List.map_cons, List.map_nil, h₁, h₂]
    rfl

/-- C4, witness: two full-completion rows seven days apart have the same
full-completion streak as two on adjacent days, namely 2. -/
theorem full_completion_streak_row_order_witness :
    ((get_metrics_for_badges 0 c4GapLogs).full_completion_streak
        = (get_metrics_for_badges 0 c4DenseLogs).full_completion_streak)
    ∧ (get_metrics_for_badges 0 c4GapLogs).full_completion_streak = 2 :=
  ⟨full_completion_streak_row_order.1 0 0 c4GapLogs c4DenseLogs
      (by decide) (by decide) (by decide),
   full_completion_streak_row_order.2 0 (fullRec 0) (fullRec 7)
      (by decide) (by decide) (by decide)⟩

theorem scanFrom_mono :
    ∀ (m : List ℤ) (p : ℤ) (c c' L L' : ℕ), c' ≤ c → L' ≤ L →
      scanFrom p c' L' m ≤ scanFrom p c L m := by
  intro m
  induction m with
  | nil => intro p c c' L L' _ hL; exact hL
  | cons d ds ih =>
      intro p c c' L L' hc hL
      simp only [scanFrom]
      by_cases h : d - p = 1
      · simp only [if_pos h]
        exact ih d (c + 1) (c' + 1) (max L (c + 1)) (max L' (c' + 1))
          (Nat.succ_le_succ hc) (max_le_max hL (Nat.succ_le_succ hc))
      · simp only [if_neg h]
        exact ih d 1 1 (max L 1) (max L' 1) le_rfl (max_le_max hL le_rfl)

theorem scanFrom_le_insSorted :
    ∀ (m : List ℤ) (p x : ℤ) (c L : ℕ), p < x → x ∉ m →
      scanFrom p c L m ≤ scanFrom p c L (insSorted x m) := by
  intro m
  induction m with
  | nil =>
      intro p x c L _ _
      simp only [insSorted, scanFrom]
      exact le_max_left L _
  | cons d ds ih =>
      intro p x c L hpx hxm
      have hxd : x ≠ d := fun e => hxm (e ▸ List.mem_cons_self d ds)
      have hxds : x ∉ ds := fun hm => hxm (List.mem_cons_of_mem d hm)
      by_cases h : x ≤ d
      · have hxd' : x < d := lt_of_le_of_ne h hxd
        have hdp : ¬ (d - p = 1) := by omega
        simp only [insSorted, if_pos h, scanFrom, if_neg hdp]
        apply scanFrom_mono
        · split_ifs <;> omega
        · apply max_le
          · exact le_trans (le_max_left _ _) (le_max_left _ _)
          · refine le_trans ?_ (le_max_right _ _)
            split_ifs <;> omega
      · have hdx : d < x := lt_of_not_le h
        simp only [insSorted, if_neg h, scanFrom]
        exact ih d x _ _ hdx hxds

theorem scanStreak_le_insUnique (x : ℤ) (s : List ℤ) :
    scanStreak s ≤ scanStreak (insUnique x s) := by
  unfold insUnique
  by_cases hx : x ∈ s
  · rw [if_pos hx]
  · rw [if_neg hx]
    cases s with
    | nil => simp [insSorted, scanStreak]
    | cons h t =>
        by_cases hxh : x ≤ h
        · have hlt : x < h :=
            lt_of_le_of_ne hxh (fun e => hx (e ▸ List.mem_cons_self h t))
          simp only [insSorted, if_pos hxh, scanStreak, scanFrom]
          apply scanFrom_mono
          · split_ifs <;> omega
          · exact le_max_left _ _
        · have hlt : h < x := lt_of_not_le hxh
          have hxt : x ∉ t := fun hm => hx (List.mem_cons_of_mem h hm)
          simp only [insSorted, if_neg hxh, scanStreak]
          exact scanFrom_le_insSorted t h x 1 1 hlt hxt

theorem longest_streak_all_cons_le (x : ℤ) (l : List ℤ) :
    _longest_streak_all l ≤ _longest_streak_all (x :: l) := by
  show scanStreak (sortedUnique l) ≤ scanStreak (sortedUnique (x :: l))
  rw [sortedUnique_cons]
  exact scanStreak_le_insUnique x (sortedUnique l)

theorem longest_streak_all_append (l : List ℤ) (x : ℤ) :
    _longest_streak_all (l ++ [x]) = _longest_streak_all (x :: l) := by
  unfold _longest_streak_all
  rw [sortedUnique_append_singleton]

/-- C7: `calculate_xp` is monotone in each determining input — appending
one more log record never decreases it (days logged grows by one and the
lifetime-best streak over the dates cannot shrink when a date is added),
and for a fixed log list it is monotone in the full-completion count. -/
theorem calculate_xp_monotone :
    ∀ (logs : List Record) (r : Record) (c : ℕ),
      calculate_xp logs c ≤ calculate_xp (logs ++ [r]) c
      ∧ calculate_xp logs c ≤ calculate_xp logs (c + 1) := by
  intro logs r c
  constructor
  · by_cases h : logs = []
    · subst h
      show calculate_xp [] c ≤ _
      simp [calculate_xp]
    · have hne : logs ++ [r] ≠ [] := by simp
      have hstreak : _longest_streak_all (logs.map Record.log_date)
          ≤ _longest_streak_all ((logs ++ [r]).map Record.log_date) := by
        have hmap : (logs ++ [r]).map Record.log_date
            = logs.map Record.log_date ++ [r.log_date] := by simp
        rw [hmap, longest_streak_all_append]
        exact longest_streak_all_cons_le _ _
      simp only [calculate_xp, if_neg h, if_neg hne, XP_PER_DAY_LOGGED,
        XP_PER_FULL_DAY, XP_BONUS_30_STREAK, XP_BONUS_7_STREAK,
        List.length_append, List.length_cons, List.length_nil]
      split_ifs <;> omega
  · by_cases h : logs = []
    · subst h
      show calculate_xp [] c ≤ calculate_xp [] (c + 1)
      simp [calculate_xp]
    · simp only [calculate_xp, if_neg h, XP_PER_DAY_LOGGED, XP_PER_FULL_DAY,
        XP_BONUS_30_STREAK, XP_BONUS_7_STREAK]
      split_ifs <;> omega
